import Mathlib

/-!
# Verification of the coroutine runtime (rustcc/coroutine-rs)

A shallow embedding of the parts of the runtime that the specification talks
about, together with theorems settling the spec's claims:

* `Coro.Pool` — the guarded stack cache (`src/stack/stack_pool.rs`):
  `take_stack` (first-fit via `Iterator::position` + `Vec::swap_remove`),
  `give_stack` (bounded cache), `max_cached_stacks` (env-overridable maximum),
  and the spawn `Options` defaults (`src/options.rs`).
* `Coro.Machine` — the unique-handle coroutine state machine
  (`src/coroutine_unique.rs`): the per-thread `Environment` (active-coroutine
  stack plus last-panic slot), `yield_now` / `sched` / `block`, the trampoline
  (`coroutine_initialize`), `Handle::resume` and `Handle::join`.  Coroutine
  bodies are abstracted as the sequence of suspensions they perform
  (`sched()` / `block()` calls) followed by a final outcome (normal return or
  panic with a payload); context switches become big-step transitions of the
  machine, which is sound because resume/yield follows a strict nested
  call/return discipline on a single OS thread.
* `Coro.Clonable` — the clonable-handle variant (`src/coroutine_clonable.rs`),
  whose `resume` dispatch and post-switch bookkeeping differ.
* `Coro.Sched` — the scheduler's `ready` queueing and the `resume_coroutine`
  dispatch on the post-resume state (`src/scheduler.rs`).
* `Coro.Asym` — the asymmetric coroutine's forced unwind on drop
  (`src/coroutine/asymmetric.rs`), contrasted with the plain `Drop` of the
  unique-handle `Coroutine` which returns the stack without unwinding.
-/

namespace Coro

/-- `State` of a coroutine (`src/coroutine_unique.rs`, re-exported from
`src/lib.rs`): `Normal` waits for a child, `Suspended`/`Blocked` can be
resumed, `Finished`/`Panicked` are terminal. -/
inductive State where
  | Normal
  | Suspended
  | Blocked
  | Running
  | Finished
  | Panicked
deriving DecidableEq

namespace Pool

/-- A stack region handed out by the pool (`src/stack/stack_standard.rs`).
`id` stands for the identity of the underlying memory mapping (`buf`), and
`min_size` is the stored requested size returned by `Stack::min_size()`. -/
structure Stack where
  id : Nat
  min_size : Nat
deriving DecidableEq

/-- What `StackPool::take_stack` produces: either a cached `Stack` taken out
of the pool, or a freshly mapped one of the requested size (`Stack::new`). -/
inductive TakeResult where
  | cached (s : Stack)
  | fresh (size : Nat)
deriving DecidableEq

/-- `true` exactly when the result reuses a cached stack (no new mapping). -/
def TakeResult.isCached : TakeResult → Bool
  | .cached _ => true
  | .fresh _ => false

/-- Capacity of the resulting stack: `min_size` of the cached stack, or the
requested size for a fresh allocation. -/
def TakeResult.capacity : TakeResult → Nat
  | .cached s => s.min_size
  | .fresh n => n

/-- Whether the returned stack is one of the given cached stacks. -/
def TakeResult.fromList (r : TakeResult) (l : List Stack) : Bool :=
  match r with
  | .cached s => decide (s ∈ l)
  | .fresh _ => false

/-- The per-thread cache of retired stacks (`StackPool { stacks: Vec<Stack> }`).
The field keeps the source name `stacks` (escaped, since Mathlib reserves the
bare word for an attribute). -/
structure StackPool where
  «stacks» : List Stack
deriving DecidableEq

/-- `Iterator::position` over the stacks: index of the first element
satisfying the predicate. -/
def position (pred : Stack → Bool) : List Stack → Option Nat
  | [] => none
  | s :: rest => if pred s then some 0 else (position pred rest).map (· + 1)

/-- `Vec::swap_remove(i)`: remove the element at `i`, moving the last element
into its place. -/
def swapRemove (l : List Stack) (i : Nat) : List Stack :=
  match l.getLast? with
  | none => []
  | some last => (l.set i last).dropLast

/-- `StackPool::take_stack(min_size)`: first-fit search for a cached stack
with `min_size <= s.min_size()`; on a hit that stack is `swap_remove`d and
returned, otherwise `Stack::new(min_size)` allocates a fresh one. -/
def StackPool.take_stack (p : StackPool) (min_size : Nat) : TakeResult × StackPool :=
  match position (fun s => decide (min_size ≤ s.min_size)) p.stacks with
  | some idx => (TakeResult.cached (p.stacks.getD idx (Stack.mk 0 0)),
                 StackPool.mk (swapRemove p.stacks idx))
  | none => (TakeResult.fresh min_size, p)

/-- `StackPool::give_stack(stack)`: push the stack back into the cache if
`stacks.len() <= max_cached_stacks()`, otherwise drop it (free it). -/
def StackPool.give_stack (p : StackPool) (maxCached : Nat) (stack : Stack) : StackPool :=
  if p.stacks.length ≤ maxCached then StackPool.mk (p.stacks ++ [stack]) else p

/-- `max_cached_stacks()` (`src/stack/stack_pool.rs`): the parsed value of the
`RUST_MAX_CACHED_STACKS` environment variable, defaulting to 10.  The atomic
memoisation in the source only caches the first computed value, so the
function is observationally this pure function of the environment setting. -/
def max_cached_stacks (envVar : Option Nat) : Nat :=
  envVar.getD 10

/-- Pool states reachable from the empty pool by `take_stack` / `give_stack`
operations under a fixed configured maximum. -/
inductive Reachable (maxCached : Nat) : StackPool → Prop where
  | init : Reachable maxCached (StackPool.mk [])
  | take (p : StackPool) (n : Nat) :
      Reachable maxCached p → Reachable maxCached (p.take_stack n).2
  | give (p : StackPool) (s : Stack) :
      Reachable maxCached p → Reachable maxCached (p.give_stack maxCached s)

/-- `n` successive `give_stack` calls on an initially empty pool with the
default maximum of 10 cached stacks. -/
def givesRange : Nat → StackPool
  | 0 => StackPool.mk []
  | k + 1 => (givesRange k).give_stack 10 (Stack.mk k (2 * 1024 * 1024))

end Pool

/-- Default stack size (`src/options.rs`): `DEFAULT_STACK_SIZE = 2 * 1024 * 1024`. -/
def DEFAULT_STACK_SIZE : Nat := 2 * 1024 * 1024

/-- Coroutine spawn options (`src/options.rs`). -/
structure Options where
  stack_size : Nat
  name : Option String

/-- `impl Default for Options`: 2 MiB stack, no name. -/
def Options.default : Options :=
  { stack_size := DEFAULT_STACK_SIZE, name := none }

namespace Machine

/-- A suspension a coroutine body performs: `sched()` yields with `Suspended`,
`block()` yields with `Blocked` (`src/coroutine_unique.rs`). -/
inductive Ev where
  | sched
  | block
deriving DecidableEq

/-- The `State` the body passes to `Coroutine::yield_now` for each suspension. -/
def Ev.toState : Ev → State
  | .sched => State.Suspended
  | .block => State.Blocked

/-- How a coroutine body ends: a normal return, or a panic carrying a payload
(payloads are abstracted as naturals). -/
inductive Outcome where
  | ret
  | panic (payload : Nat)
deriving DecidableEq

/-- A coroutine record: its `state` field plus the abstraction of its body —
the suspensions it still has to perform (`events`) and its final `outcome`.
The stack segment and saved context are implicit in the machine's control
discipline. -/
structure Coroutine where
  state : State
  events : List Ev
  outcome : Outcome
deriving DecidableEq

/-- Placeholder coroutine for out-of-range indices. -/
def Coroutine.dflt : Coroutine :=
  ⟨State.Finished, [], Outcome.ret⟩

/-- Look up the coroutine with a given index. -/
def getC : List Coroutine → Nat → Coroutine
  | [], _ => Coroutine.dflt
  | c :: _, 0 => c
  | _ :: cs, i + 1 => getC cs i

/-- Update the coroutine at a given index (no-op out of range). -/
def updateC (f : Coroutine → Coroutine) : List Coroutine → Nat → List Coroutine
  | [], _ => []
  | c :: cs, 0 => f c :: cs
  | c :: cs, i + 1 => c :: updateC f cs i

/-- `set_state` on the coroutine with the given index. -/
def setSt (l : List Coroutine) (i : Nat) (st : State) : List Coroutine :=
  updateC (fun c => { c with state := st }) l i

/-- Replace the remaining suspensions of the coroutine at the given index. -/
def setEvents (l : List Coroutine) (i : Nat) (evs : List Ev) : List Coroutine :=
  updateC (fun c => { c with events := evs }) l i

/-- The per-thread `Environment` (`src/coroutine_unique.rs`): the coroutine
records, the stack of currently active coroutine indices (`coroutine_stack`,
bottom-to-top, the root pseudo-coroutine at the bottom), and the last panic
payload slot (`running_state`). -/
structure Env where
  coros : List Coroutine
  coroutine_stack : List Nat
  running_state : Option Nat
deriving DecidableEq

/-- What a call to `yield_now` does from the caller's point of view:
`returned` — came straight back (root no-op), `fatal` — a panic
(`assert!` failure or `unreachable!`), `switched` — control was transferred
to the parent coroutine. -/
inductive YieldOut where
  | returned
  | fatal
  | switched
deriving DecidableEq

/-- `Coroutine::yield_now(state)` (`src/coroutine_unique.rs`): asserts
`state != Running`; a no-op at the environment root
(`coroutine_stack.len() == 1`); otherwise pops the current coroutine, sets its
state, and swaps to the new top of the stack. -/
def yield_now (e : Env) (st : State) : Env × YieldOut :=
  if st = State.Running then (e, YieldOut.fatal)
  else if e.coroutine_stack.length = 1 then (e, YieldOut.returned)
  else
    match e.coroutine_stack.getLast? with
    | none => (e, YieldOut.fatal)
    | some from_id =>
        ({ e with coros := setSt e.coros from_id st,
                  coroutine_stack := e.coroutine_stack.dropLast },
         YieldOut.switched)

/-- `Coroutine::sched()`: yield with `Suspended`. -/
def sched (e : Env) : Env × YieldOut :=
  yield_now e State.Suspended

/-- `Coroutine::block()`: yield with `Blocked`. -/
def block (e : Env) : Env × YieldOut :=
  yield_now e State.Blocked

/-- The trampoline `coroutine_initialize` recording the body's outcome in the
`Environment` after `try(...)` returns: a normal return clears
`running_state`, a panic stores the payload there. -/
def trampolineStore (e : Env) : Outcome → Env
  | .ret => { e with running_state := none }
  | .panic p => { e with running_state := some p }

/-- The state the trampoline yields with after the body ends. -/
def trampolineState : Outcome → State
  | .ret => State.Finished
  | .panic _ => State.Panicked

/-- Big-step execution of the coroutine `target` from the moment
`Context::swap` enters it until it switches back: either the body reaches its
next suspension (one `yield_now` with that event's state), or the body ends
and the trampoline records the outcome and enters its
`loop { yield_now(state) }`. -/
def runToYield (e : Env) (target : Nat) : Env :=
  match (getC e.coros target).events with
  | ev :: rest =>
      (yield_now { e with coros := setEvents e.coros target rest } ev.toState).1
  | [] =>
      (yield_now (trampolineStore e (getC e.coros target).outcome)
        (trampolineState (getC e.coros target).outcome)).1

/-- Result of `Handle::resume`: `Ok(())`, `Err(payload)` (the
`ResumeResult` of `src/coroutine_unique.rs`), or a panic in the resuming
caller (`panic!` on `Panicked`/`Normal` targets, or a failed `expect`). -/
inductive ROut where
  | ok
  | err (payload : Nat)
  | fatal
deriving DecidableEq

/-- The tail of `Handle::resume` after the swap returns:
`env.running_state.take()` translates a recorded panic payload into an `Err`. -/
def takeResumeResult (e : Env) : Env × ROut :=
  match e.running_state with
  | some p => ({ e with running_state := none }, ROut.err p)
  | none => (e, ROut.ok)

/-- The switching part of `Handle::resume`: look up the current coroutine,
mark the callee `Running` and the caller `Normal`, push the callee, perform
the swap (`runToYield`), then translate a recorded panic payload with
`running_state.take()`. -/
def resumeSwitch (e : Env) (target : Nat) : Env × ROut :=
  match e.coroutine_stack.getLast? with
  | none => (e, ROut.fatal)
  | some from_id =>
    takeResumeResult (runToYield
      { coros := setSt (setSt e.coros target State.Running) from_id State.Normal,
        coroutine_stack := e.coroutine_stack ++ [target],
        running_state := e.running_state } target)

/-- `Handle::resume` (`src/coroutine_unique.rs`): `Finished`/`Running` are
no-ops returning `Ok(())`; `Panicked` and `Normal` panic in the caller;
`Suspended`/`Blocked` perform the switch. -/
def resume (e : Env) (target : Nat) : Env × ROut :=
  match (getC e.coros target).state with
  | State.Finished => (e, ROut.ok)
  | State.Running => (e, ROut.ok)
  | State.Panicked => (e, ROut.fatal)
  | State.Normal => (e, ROut.fatal)
  | State.Suspended => resumeSwitch e target
  | State.Blocked => resumeSwitch e target

/-- Result of `Handle::join`: `Ok(())`, the propagated `Err(payload)`, a
panic propagated out of `resume`, or fuel exhaustion (never reached for the
fuel chosen by `join`). -/
inductive JOut where
  | ok
  | err (payload : Nat)
  | fatal
  | nofuel
deriving DecidableEq

/-- The loop of `Handle::join` (`src/coroutine_unique.rs`): while the state is
`Suspended` or `Blocked`, `try!(self.resume())`; any other state breaks the
loop and returns `Ok(())`. -/
def joinAux : Nat → Env → Nat → Env × JOut
  | 0, e, _ => (e, JOut.nofuel)
  | fuel + 1, e, t =>
    match (getC e.coros t).state with
    | State.Suspended | State.Blocked =>
      match resume e t with
      | (e', ROut.ok) => joinAux fuel e' t
      | (e', ROut.err p) => (e', JOut.err p)
      | (e', ROut.fatal) => (e', JOut.fatal)
    | _ => (e, JOut.ok)

/-- `Handle::join`, with enough fuel to drive the body to its end. -/
def join (e : Env) (t : Nat) : Env × JOut :=
  joinAux ((getC e.coros t).events.length + 2) e t

/-- A well-formed single-parent configuration: the root coroutine `r` is the
only active one, the target `t` is a different, existing coroutine that is
`Suspended` or `Blocked`, and no stale panic payload is pending. -/
def ValidRun (e : Env) (t r : Nat) : Prop :=
  e.coroutine_stack = [r] ∧ r ≠ t ∧ t < e.coros.length ∧
    e.running_state = none ∧
    ((getC e.coros t).state = State.Suspended ∨
      (getC e.coros t).state = State.Blocked)

instance (e : Env) (t r : Nat) : Decidable (ValidRun e t r) := by
  unfold ValidRun
  infer_instance

/-- The environment after a `resume` from root `r` ran `target` up to its
next suspension `ev` (remaining body `rest`). -/
def afterConsume (e : Env) (t r : Nat) (ev : Ev) (rest : List Ev) : Env :=
  { coros := setSt (setEvents (setSt (setSt e.coros t State.Running) r State.Normal) t rest)
      t ev.toState,
    coroutine_stack := [r],
    running_state := none }

/-- The environment after a `resume` from root `r` ran `target` to a normal
return: the trampoline cleared `running_state` and yielded with `Finished`. -/
def afterFinish (e : Env) (t r : Nat) : Env :=
  { coros := setSt (setSt (setSt e.coros t State.Running) r State.Normal) t State.Finished,
    coroutine_stack := [r],
    running_state := none }

/-- The environment after a `resume` from root `r` ran `target` to a panic:
the trampoline stored the payload, yielded with `Panicked`, and the resumer's
`running_state.take()` emptied the slot again. -/
def afterPanic (e : Env) (t r : Nat) : Env :=
  { coros := setSt (setSt (setSt e.coros t State.Running) r State.Normal) t State.Panicked,
    coroutine_stack := [r],
    running_state := none }

/-- Root coroutine at rest and a worker that will panic with payload 7. -/
def envPanic : Env :=
  { coros := [⟨State.Running, [], Outcome.ret⟩,
              ⟨State.Suspended, [], Outcome.panic 7⟩],
    coroutine_stack := [0],
    running_state := none }

/-- Root coroutine at rest and a worker parked in `Blocked` state whose body
would finish if resumed once more. -/
def envBlocked : Env :=
  { coros := [⟨State.Running, [], Outcome.ret⟩,
              ⟨State.Blocked, [], Outcome.ret⟩],
    coroutine_stack := [0],
    running_state := none }

/-- A worker that suspends once with `sched()` and then returns normally. -/
def envSchedOnce : Env :=
  { coros := [⟨State.Running, [], Outcome.ret⟩,
              ⟨State.Suspended, [Ev.sched], Outcome.ret⟩],
    coroutine_stack := [0],
    running_state := none }

/-- Only the environment root pseudo-coroutine is active. -/
def envRoot : Env :=
  { coros := [⟨State.Running, [], Outcome.ret⟩],
    coroutine_stack := [0],
    running_state := none }

/-- Root plus a `Finished` worker, unique variant. -/
def envFinished : Env :=
  { coros := [⟨State.Running, [], Outcome.ret⟩,
              ⟨State.Finished, [], Outcome.ret⟩],
    coroutine_stack := [0],
    running_state := none }

/-- Root plus a `Panicked` worker, unique variant. -/
def envPanicked : Env :=
  { coros := [⟨State.Running, [], Outcome.ret⟩,
              ⟨State.Panicked, [], Outcome.ret⟩],
    coroutine_stack := [0],
    running_state := none }

end Machine

namespace Clonable

/-- The per-thread environment of the clonable variant
(`src/environment.rs` with `enable-clonable-handle`): as in `Machine.Env`,
plus the `switch_state` slot recorded by `yield_now` and read back by
`resume` after the switch. -/
structure CEnv where
  coros : List Machine.Coroutine
  coroutine_stack : List Nat
  running_state : Option Nat
  switch_state : State
deriving DecidableEq

/-- `Error` (`src/lib.rs`): the recoverable resume errors of the clonable
variant. -/
inductive Error where
  | finished
  | waiting
  | panicked
  | panicking (payload : Nat)
deriving DecidableEq

/-- Result of the clonable `Handle::resume`: `Ok(())`, a recoverable
`Err(Error)`, or a panic in the caller. -/
inductive ROut where
  | ok
  | err (e : Error)
  | fatal
deriving DecidableEq

/-- `Coroutine::yield_now(state)` (`src/coroutine_clonable.rs`): asserts
`state != Running`; a no-op at the environment root; otherwise records the
state in `env.switch_state` (it does not touch the coroutine's own state),
pops the current coroutine and swaps to the parent. -/
def yield_now (ce : CEnv) (st : State) : CEnv × Machine.YieldOut :=
  if st = State.Running then (ce, Machine.YieldOut.fatal)
  else if ce.coroutine_stack.length = 1 then (ce, Machine.YieldOut.returned)
  else
    match ce.coroutine_stack.getLast? with
    | none => (ce, Machine.YieldOut.fatal)
    | some _ =>
        ({ ce with switch_state := st,
                   coroutine_stack := ce.coroutine_stack.dropLast },
         Machine.YieldOut.switched)

/-- The clonable trampoline's outcome recording (identical logic to the
unique variant's `coroutine_initialize`). -/
def trampolineStore (ce : CEnv) : Machine.Outcome → CEnv
  | .ret => { ce with running_state := none }
  | .panic p => { ce with running_state := some p }

/-- Big-step execution of `target` until it switches back (clonable variant). -/
def runToYield (ce : CEnv) (target : Nat) : CEnv :=
  match (Machine.getC ce.coros target).events with
  | ev :: rest =>
      (yield_now { ce with coros := Machine.setEvents ce.coros target rest }
        ev.toState).1
  | [] =>
      (yield_now (trampolineStore ce (Machine.getC ce.coros target).outcome)
        (Machine.trampolineState (Machine.getC ce.coros target).outcome)).1

/-- The post-swap bookkeeping of the clonable `resume`: the caller is set
back to `Running`, the callee's state is set to `env.switch_state`, and
a recorded panic payload becomes `Err(Error::Panicking(payload))`. -/
def takeResumeResult (from_id target : Nat) (ce : CEnv) : CEnv × ROut :=
  match ce.running_state with
  | some p =>
      ({ ce with coros := Machine.setSt (Machine.setSt ce.coros from_id State.Running)
                   target ce.switch_state,
                 running_state := none },
       ROut.err (Error.panicking p))
  | none =>
      ({ ce with coros := Machine.setSt (Machine.setSt ce.coros from_id State.Running)
                   target ce.switch_state },
       ROut.ok)

def resumeSwitch (ce : CEnv) (target : Nat) : CEnv × ROut :=
  match ce.coroutine_stack.getLast? with
  | none => ({ ce with coros := Machine.setSt ce.coros target State.Running }, ROut.fatal)
  | some from_id =>
    takeResumeResult from_id target (runToYield
      { coros := Machine.setSt (Machine.setSt ce.coros target State.Running)
          from_id State.Normal,
        coroutine_stack := ce.coroutine_stack ++ [target],
        running_state := ce.running_state,
        switch_state := ce.switch_state } target)

/-- The clonable `Handle::resume` (`src/coroutine_clonable.rs`): `Finished`,
`Panicked` and `Normal` return the recoverable errors `Error::Finished`,
`Error::Panicked` and `Error::Waiting`; `Running` returns `Ok(())`;
`Suspended`/`Blocked` perform the switch. -/
def resume (ce : CEnv) (target : Nat) : CEnv × ROut :=
  match (Machine.getC ce.coros target).state with
  | State.Finished => (ce, ROut.err Error.finished)
  | State.Panicked => (ce, ROut.err Error.panicked)
  | State.Normal => (ce, ROut.err Error.waiting)
  | State.Running => (ce, ROut.ok)
  | State.Suspended => resumeSwitch ce target
  | State.Blocked => resumeSwitch ce target

/-- Root plus a `Finished` worker, clonable variant. -/
def cenvFinished : CEnv :=
  { coros := [⟨State.Running, [], Machine.Outcome.ret⟩,
              ⟨State.Finished, [], Machine.Outcome.ret⟩],
    coroutine_stack := [0],
    running_state := none,
    switch_state := State.Suspended }

/-- Root plus a `Panicked` worker, clonable variant. -/
def cenvPanicked : CEnv :=
  { coros := [⟨State.Running, [], Machine.Outcome.ret⟩,
              ⟨State.Panicked, [], Machine.Outcome.ret⟩],
    coroutine_stack := [0],
    running_state := none,
    switch_state := State.Suspended }

end Clonable

namespace Sched

/-- `MAX_PRIVATE_WORK_NUM` (`src/scheduler.rs`): capacity of the private
FIFO. -/
def MAX_PRIVATE_WORK_NUM : Nat := 10

/-- The queues of one scheduler thread (`src/scheduler.rs`): the bounded
private FIFO (`private_work: VecDeque<Handle>`, head at the front) and the
owned end of the work-stealing deque (`workqueue`).  Handles are indices. -/
structure Scheduler where
  private_work : List Nat
  workqueue : List Nat
deriving DecidableEq

/-- `Scheduler::ready(work)`: push into the private FIFO unless it is full,
in which case push onto the stealable work queue. -/
def ready (s : Scheduler) (work : Nat) : Scheduler :=
  if MAX_PRIVATE_WORK_NUM ≤ s.private_work.length then
    { s with workqueue := s.workqueue ++ [work] }
  else
    { s with private_work := s.private_work ++ [work] }

/-- What `Scheduler::resume_coroutine` does with the handle after
`work.resume()` returns. -/
inductive Action where
  | requeued
  | untouched
  | retired
  | unreachable
  | skipped
deriving DecidableEq

/-- `Scheduler::resume_coroutine(work)` (`src/scheduler.rs`): only
`Suspended`/`Blocked` handles are resumed (anything else is skipped with an
error log).  After the resume the resulting state is inspected: `Suspended` →
`ready(work)`; `Blocked` → left untouched (it is registered with the event
loop); `Finished`/`Panicked` → the handle is dropped, retiring the coroutine
(its `Drop` reclaims the stack); `Normal`/`Running` → `unreachable!()`.
The post-resume state is a parameter here because `resume` itself belongs to
the coroutine layer, which is modelled separately. -/
def resume_coroutine (s : Scheduler) (work : Nat) (pre post : State) :
    Scheduler × Action :=
  match pre with
  | State.Suspended | State.Blocked =>
    match post with
    | State.Normal => (s, Action.unreachable)
    | State.Running => (s, Action.unreachable)
    | State.Suspended => (ready s work, Action.requeued)
    | State.Blocked => (s, Action.untouched)
    | State.Finished => (s, Action.retired)
    | State.Panicked => (s, Action.retired)
  | _ => (s, Action.skipped)

end Sched

namespace Asym

/-- The private `State` of the asymmetric coroutine
(`src/coroutine/asymmetric.rs`). -/
inductive AState where
  | Created
  | Running
  | Finished
  | ForceUnwind
deriving DecidableEq

/-- Abstraction of an asymmetric `CoroutineImpl` for the drop path: its state
together with how many destructor-bearing locals are pending at its current
suspension point and how many destructors have run so far. -/
structure CoroutineImpl where
  state : AState
  pendingDestructors : Nat
  destructorsRun : Nat
deriving DecidableEq

/-- Observable events of the drop path, in order. -/
inductive DropEvent where
  | destructorsRan (n : Nat)
  | stackToPool
deriving DecidableEq

/-- The extra `resume` performed by `force_unwind`: the coroutine wakes up in
`yield_back`, sees `State::ForceUnwind`, and `begin_unwind(ForceUnwind, ..)`
unwinds the body — running every pending destructor — until the wrapper's
`try` catches the `ForceUnwind` marker and sets the state to `Finished`
before yielding back. -/
def unwindResume (c : CoroutineImpl) : CoroutineImpl × List DropEvent :=
  if c.state = AState.ForceUnwind then
    (⟨AState.Finished, 0, c.destructorsRun + c.pendingDestructors⟩,
     [DropEvent.destructorsRan c.pendingDestructors])
  else (c, [])

/-- `CoroutineImpl::force_unwind` (`src/coroutine/asymmetric.rs`): only a
`Running` coroutine (started and not finished — i.e. suspended mid-body) is
switched into once more with the `ForceUnwind` signal. -/
def force_unwind (c : CoroutineImpl) : CoroutineImpl × List DropEvent :=
  if c.state = AState.Running then
    unwindResume { c with state := AState.ForceUnwind }
  else (c, [])

/-- `Drop for CoroutineImpl`: `force_unwind` first, and only then is the
coroutine's stack taken out and given back to the thread's pool. -/
def dropImpl (c : CoroutineImpl) (pool : Pool.StackPool) (stk : Pool.Stack)
    (maxCached : Nat) : CoroutineImpl × Pool.StackPool × List DropEvent :=
  let r := force_unwind c
  (r.1, pool.give_stack maxCached stk, r.2 ++ [DropEvent.stackToPool])

/-- `Drop for Coroutine` in `src/coroutine_unique.rs`: the stack segment is
taken and given to the pool — nothing else happens; in particular there is no
switch back into the coroutine, so a suspended body is never unwound. -/
def uniqueCoroutineDrop (stackSegment : Option Pool.Stack) (pool : Pool.StackPool)
    (maxCached : Nat) : Pool.StackPool × List DropEvent :=
  match stackSegment with
  | some stk => (pool.give_stack maxCached stk, [DropEvent.stackToPool])
  | none => (pool, [])

end Asym

end Coro

/-! ## Helper lemmas -/

namespace Coro.Pool

theorem position_spec {pred : Stack → Bool} :
    ∀ {l : List Stack} {i : Nat}, position pred l = some i →
      i < l.length ∧ pred (l.getD i (Stack.mk 0 0)) = true ∧
        l.getD i (Stack.mk 0 0) ∈ l := by
  intro l
  induction l with
  | nil => intro i h; simp [position] at h
  | cons s rest ih =>
    intro i h
    simp only [position] at h
    by_cases hp : pred s
    · simp only [hp, if_true, Option.some.injEq] at h
      subst h
      exact ⟨Nat.succ_pos _, by simpa using hp, by simp⟩
    · cases hrest : position pred rest with
      | none => simp [hp, hrest] at h
      | some j =>
      simp [hp, hrest] at h
      subst h
      obtain ⟨h1, h2, h3⟩ := ih hrest
      refine ⟨by simpa using Nat.succ_lt_succ h1, ?_, ?_⟩
      · simpa using h2
      · simpa using Or.inr h3

theorem position_none {pred : Stack → Bool} :
    ∀ {l : List Stack}, (∀ s ∈ l, pred s = false) → position pred l = none := by
  intro l
  induction l with
  | nil => intro _; rfl
  | cons s rest ih =>
    intro h
    have hs := h s (by simp)
    simp only [position, hs]
    simp [ih (fun x hx => h x (by simp [hx]))]

theorem swapRemove_length {l : List Stack} (h : l ≠ []) (i : Nat) :
    (swapRemove l i).length = l.length - 1 := by
  unfold swapRemove
  match hl : l.getLast? with
  | none => exact absurd (List.getLast?_eq_none_iff.mp hl) h
  | some last => simp

theorem position_append_of_none {pred : Stack → Bool} {l : List Stack}
    (h : position pred l = none) (s : Stack) (hs : pred s = true) :
    position pred (l ++ [s]) = some l.length := by
  induction l with
  | nil => simp [position, hs]
  | cons a rest ih =>
    simp only [position] at h ⊢
    by_cases hp : pred a
    · simp [hp] at h
    · have hrest : position pred rest = none := by
        cases hmaybe : position pred rest with
        | none => rfl
        | some j => simp [hp, hmaybe] at h
      simp [hp, ih hrest]

theorem position_of_any {pred : Stack → Bool} :
    ∀ {l : List Stack}, l.any pred = true → ∃ i, position pred l = some i := by
  intro l
  induction l with
  | nil => intro h; simp at h
  | cons s rest ih =>
    intro h
    by_cases hp : pred s
    · exact ⟨0, by simp [position, hp]⟩
    · have hrest : rest.any pred = true := by
        simp only [List.any_cons, hp] at h
        simpa using h
      obtain ⟨j, hj⟩ := ih hrest
      exact ⟨j + 1, by simp [position, hp, hj]⟩

theorem getD_append_length (l : List Stack) (s : Stack) :
    (l ++ [s]).getD l.length (Stack.mk 0 0) = s := by
  induction l with
  | nil => rfl
  | cons a rest ih => simp [ih]

theorem set_append_length (l : List Stack) (s : Stack) :
    (l ++ [s]).set l.length s = l ++ [s] := by
  induction l with
  | nil => rfl
  | cons a rest ih => simp [List.set, ih]

theorem swapRemove_append_length (l : List Stack) (s : Stack) :
    swapRemove (l ++ [s]) l.length = l := by
  unfold swapRemove
  rw [List.getLast?_concat]
  show ((l ++ [s]).set l.length s).dropLast = l
  rw [set_append_length]
  exact List.dropLast_concat

theorem reachable_givesRange (n : Nat) : Reachable 10 (givesRange n) := by
  induction n with
  | zero => exact Reachable.init
  | succ k ih => exact Reachable.give _ _ ih

end Coro.Pool


namespace Coro.Machine

theorem updateC_length (f : Coroutine → Coroutine) :
    ∀ (l : List Coroutine) (i : Nat), (updateC f l i).length = l.length := by
  intro l
  induction l with
  | nil => intro i; rfl
  | cons c cs ih =>
    intro i
    cases i with
    | zero => rfl
    | succ j => simpa [updateC] using ih j

theorem getC_updateC_eq (f : Coroutine → Coroutine) :
    ∀ (l : List Coroutine) (i : Nat), i < l.length →
      getC (updateC f l i) i = f (getC l i) := by
  intro l
  induction l with
  | nil => intro i h; simp at h
  | cons c cs ih =>
    intro i h
    cases i with
    | zero => rfl
    | succ j => exact ih j (by simpa using h)

theorem getC_updateC_ne (f : Coroutine → Coroutine) :
    ∀ (l : List Coroutine) (i j : Nat), i ≠ j →
      getC (updateC f l i) j = getC l j := by
  intro l
  induction l with
  | nil => intro i j _; rfl
  | cons c cs ih =>
    intro i j hne
    cases i with
    | zero =>
      cases j with
      | zero => exact absurd rfl hne
      | succ k => rfl
    | succ i' =>
      cases j with
      | zero => rfl
      | succ k => exact ih i' k (fun hx => hne (by rw [hx]))

theorem getC_setSt_eq (l : List Coroutine) (i : Nat) (st : State) (h : i < l.length) :
    getC (setSt l i st) i = { getC l i with state := st } :=
  getC_updateC_eq _ l i h

theorem getC_setSt_ne (l : List Coroutine) (i j : Nat) (st : State) (h : i ≠ j) :
    getC (setSt l i st) j = getC l j :=
  getC_updateC_ne _ l i j h

theorem setSt_length (l : List Coroutine) (i : Nat) (st : State) :
    (setSt l i st).length = l.length :=
  updateC_length _ l i

theorem getC_setEvents_eq (l : List Coroutine) (i : Nat) (evs : List Ev) (h : i < l.length) :
    getC (setEvents l i evs) i = { getC l i with events := evs } :=
  getC_updateC_eq _ l i h

theorem getC_setEvents_ne (l : List Coroutine) (i j : Nat) (evs : List Ev) (h : i ≠ j) :
    getC (setEvents l i evs) j = getC l j :=
  getC_updateC_ne _ l i j h

theorem setEvents_length (l : List Coroutine) (i : Nat) (evs : List Ev) :
    (setEvents l i evs).length = l.length :=
  updateC_length _ l i

theorem toState_ne_running (ev : Ev) : ev.toState ≠ State.Running := by
  cases ev <;> simp [Ev.toState]

theorem resume_eq_consume (e : Env) {t r : Nat} {ev : Ev} {rest : List Ev}
    (h : ValidRun e t r) (hev : (getC e.coros t).events = ev :: rest) :
    resume e t = (afterConsume e t r ev rest, ROut.ok) := by
  obtain ⟨hstk, hrt, hlen, hrs, hst⟩ := h
  have hc : getC (setSt (setSt e.coros t State.Running) r State.Normal) t
      = { getC e.coros t with state := State.Running } := by
    rw [getC_setSt_ne _ _ _ _ hrt, getC_setSt_eq _ _ _ hlen]
  have hswitch : resumeSwitch e t = (afterConsume e t r ev rest, ROut.ok) := by
    unfold resumeSwitch
    rw [hstk]
    simp only [List.getLast?_singleton]
    unfold runToYield
    simp only [hc, hev]
    unfold yield_now
    simp only [if_neg (toState_ne_running ev)]
    simp only [List.length_append, List.length_singleton]
    norm_num
    rw [hrs]
    rfl
  unfold resume
  cases hst with
  | inl h1 => rw [h1]; exact hswitch
  | inr h1 => rw [h1]; exact hswitch

theorem resume_eq_finish (e : Env) {t r : Nat}
    (h : ValidRun e t r) (hev : (getC e.coros t).events = [])
    (hoc : (getC e.coros t).outcome = Outcome.ret) :
    resume e t = (afterFinish e t r, ROut.ok) := by
  obtain ⟨hstk, hrt, hlen, hrs, hst⟩ := h
  have hc : getC (setSt (setSt e.coros t State.Running) r State.Normal) t
      = { getC e.coros t with state := State.Running } := by
    rw [getC_setSt_ne _ _ _ _ hrt, getC_setSt_eq _ _ _ hlen]
  have hswitch : resumeSwitch e t = (afterFinish e t r, ROut.ok) := by
    unfold resumeSwitch
    rw [hstk]
    simp only [List.getLast?_singleton]
    unfold runToYield
    simp only [hc, hev, hoc]
    rfl
  unfold resume
  cases hst with
  | inl h1 => rw [h1]; exact hswitch
  | inr h1 => rw [h1]; exact hswitch

theorem resume_eq_panic (e : Env) {t r : Nat} {p : Nat}
    (h : ValidRun e t r) (hev : (getC e.coros t).events = [])
    (hoc : (getC e.coros t).outcome = Outcome.panic p) :
    resume e t = (afterPanic e t r, ROut.err p) := by
  obtain ⟨hstk, hrt, hlen, hrs, hst⟩ := h
  have hc : getC (setSt (setSt e.coros t State.Running) r State.Normal) t
      = { getC e.coros t with state := State.Running } := by
    rw [getC_setSt_ne _ _ _ _ hrt, getC_setSt_eq _ _ _ hlen]
  have hswitch : resumeSwitch e t = (afterPanic e t r, ROut.err p) := by
    unfold resumeSwitch
    rw [hstk]
    simp only [List.getLast?_singleton]
    unfold runToYield
    simp only [hc, hev, hoc]
    rfl
  unfold resume
  cases hst with
  | inl h1 => rw [h1]; exact hswitch
  | inr h1 => rw [h1]; exact hswitch

theorem afterConsume_getC (e : Env) (t r : Nat) (ev : Ev) (rest : List Ev)
    (hrt : r ≠ t) (hlen : t < e.coros.length) :
    getC (afterConsume e t r ev rest).coros t =
      { state := ev.toState, events := rest, outcome := (getC e.coros t).outcome } := by
  have hlen1 : t < (setSt (setSt e.coros t State.Running) r State.Normal).length := by
    rw [setSt_length, setSt_length]; exact hlen
  have hlen2 : t < (setEvents (setSt (setSt e.coros t State.Running) r State.Normal) t rest).length := by
    rw [setEvents_length]; exact hlen1
  unfold afterConsume
  rw [getC_setSt_eq _ _ _ hlen2, getC_setEvents_eq _ _ _ hlen1,
      getC_setSt_ne _ _ _ _ hrt, getC_setSt_eq _ _ _ hlen]

theorem afterFinish_getC (e : Env) (t r : Nat)
    (hrt : r ≠ t) (hlen : t < e.coros.length) :
    getC (afterFinish e t r).coros t = { getC e.coros t with state := State.Finished } := by
  have hlen1 : t < (setSt (setSt e.coros t State.Running) r State.Normal).length := by
    rw [setSt_length, setSt_length]; exact hlen
  unfold afterFinish
  rw [getC_setSt_eq _ _ _ hlen1, getC_setSt_ne _ _ _ _ hrt, getC_setSt_eq _ _ _ hlen]

theorem afterPanic_getC (e : Env) (t r : Nat)
    (hrt : r ≠ t) (hlen : t < e.coros.length) :
    getC (afterPanic e t r).coros t = { getC e.coros t with state := State.Panicked } := by
  have hlen1 : t < (setSt (setSt e.coros t State.Running) r State.Normal).length := by
    rw [setSt_length, setSt_length]; exact hlen
  unfold afterPanic
  rw [getC_setSt_eq _ _ _ hlen1, getC_setSt_ne _ _ _ _ hrt, getC_setSt_eq _ _ _ hlen]

theorem validRun_afterConsume (e : Env) (t r : Nat) (ev : Ev) (rest : List Ev)
    (h : ValidRun e t r) : ValidRun (afterConsume e t r ev rest) t r := by
  obtain ⟨hstk, hrt, hlen, hrs, hst⟩ := h
  refine ⟨rfl, hrt, ?_, rfl, ?_⟩
  · show t < (setSt (setEvents (setSt (setSt e.coros t State.Running) r State.Normal) t rest)
      t ev.toState).length
    rw [setSt_length, setEvents_length, setSt_length, setSt_length]
    exact hlen
  · rw [afterConsume_getC _ _ _ _ _ hrt hlen]
    cases ev
    · exact Or.inl rfl
    · exact Or.inr rfl

theorem joinAux_stop (fuel : Nat) (e : Env) (t : Nat)
    (h1 : (getC e.coros t).state ≠ State.Suspended)
    (h2 : (getC e.coros t).state ≠ State.Blocked) :
    joinAux (fuel + 1) e t = (e, JOut.ok) := by
  unfold joinAux
  cases hst2 : (getC e.coros t).state with
  | Normal => rfl
  | Suspended => exact absurd hst2 h1
  | Blocked => exact absurd hst2 h2
  | Running => rfl
  | Finished => rfl
  | Panicked => rfl

theorem joinAux_step (fuel : Nat) (e e' : Env) (t : Nat)
    (hst : (getC e.coros t).state = State.Suspended ∨
      (getC e.coros t).state = State.Blocked)
    (hres : resume e t = (e', ROut.ok)) :
    joinAux (fuel + 1) e t = joinAux fuel e' t := by
  conv_lhs => unfold joinAux
  cases hst with
  | inl h1 => rw [h1, hres]
  | inr h1 => rw [h1, hres]

theorem joinAux_err (fuel : Nat) (e e' : Env) (t p : Nat)
    (hst : (getC e.coros t).state = State.Suspended ∨
      (getC e.coros t).state = State.Blocked)
    (hres : resume e t = (e', ROut.err p)) :
    joinAux (fuel + 1) e t = (e', JOut.err p) := by
  unfold joinAux
  cases hst with
  | inl h1 => rw [h1, hres]
  | inr h1 => rw [h1, hres]

theorem joinAux_run :
    ∀ (evs : List Ev) (fuel : Nat) (e : Env) (t r : Nat),
      ValidRun e t r → (getC e.coros t).events = evs → evs.length + 2 ≤ fuel →
      ((getC e.coros t).outcome = Outcome.ret →
        (joinAux fuel e t).2 = JOut.ok ∧
        (getC (joinAux fuel e t).1.coros t).state = State.Finished) ∧
      (∀ p, (getC e.coros t).outcome = Outcome.panic p →
        (joinAux fuel e t).2 = JOut.err p ∧
        (getC (joinAux fuel e t).1.coros t).state = State.Panicked) := by
  intro evs
  induction evs with
  | nil =>
    intro fuel e t r h hev hfuel
    obtain ⟨f, rfl⟩ : ∃ f, fuel = (f + 1) + 1 := ⟨fuel - 2, by omega⟩
    have hrt := h.2.1
    have hlen := h.2.2.1
    have hst := h.2.2.2.2
    constructor
    · intro hoc
      have hres := resume_eq_finish e h hev hoc
      rw [joinAux_step (f + 1) e (afterFinish e t r) t hst hres]
      have hfin := afterFinish_getC e t r hrt hlen
      rw [joinAux_stop f (afterFinish e t r) t
        (by rw [hfin]; intro hcontra; simp at hcontra)
        (by rw [hfin]; intro hcontra; simp at hcontra)]
      exact ⟨rfl, by rw [hfin]⟩
    · intro p hoc
      have hres := resume_eq_panic e h hev hoc
      rw [joinAux_err (f + 1) e (afterPanic e t r) t p hst hres]
      have hfin := afterPanic_getC e t r hrt hlen
      exact ⟨rfl, by rw [hfin]⟩
  | cons ev rest ih =>
    intro fuel e t r h hev hfuel
    obtain ⟨f, rfl⟩ : ∃ f, fuel = f + 1 := ⟨fuel - 1, by omega⟩
    have hrt := h.2.1
    have hlen := h.2.2.1
    have hst := h.2.2.2.2
    have hres := resume_eq_consume e h hev
    rw [joinAux_step f e (afterConsume e t r ev rest) t hst hres]
    have hvalid := validRun_afterConsume e t r ev rest h
    have hev' : (getC (afterConsume e t r ev rest).coros t).events = rest := by
      rw [afterConsume_getC _ _ _ _ _ hrt hlen]
    have hoc' : (getC (afterConsume e t r ev rest).coros t).outcome
        = (getC e.coros t).outcome := by
      rw [afterConsume_getC _ _ _ _ _ hrt hlen]
    have hfuel' : rest.length + 2 ≤ f := by
      simp only [List.length_cons] at hfuel
      omega
    obtain ⟨ihret, ihpanic⟩ := ih f (afterConsume e t r ev rest) t r hvalid hev' hfuel'
    constructor
    · intro hoc
      exact ihret (by rw [hoc', hoc])
    · intro p hoc
      exact ihpanic p (by rw [hoc', hoc])

end Coro.Machine

/-! ## The claims -/

/-- C9: the default spawn options give a 2 MiB stack, and the maximum number
of cached stacks per pool defaults to 10 and is overridable through the
`RUST_MAX_CACHED_STACKS` environment-style configuration value. -/
theorem defaults_stack_and_pool :
    Coro.Options.default.stack_size = 2 * 1024 * 1024 ∧
    Coro.Pool.max_cached_stacks none = 10 ∧
    ∀ n : Nat, Coro.Pool.max_cached_stacks (some n) = n := by
  refine ⟨rfl, rfl, ?_⟩
  intro n
  rfl

/-- C9 witness: the override and the default evaluated at concrete values. -/
theorem defaults_stack_and_pool_witness :
    Coro.Pool.max_cached_stacks (some 7) = 7 :=
  defaults_stack_and_pool.2.2 7

/-- C5 counterexample: eleven `give_stack` calls on an empty pool with the
default maximum of 10 leave the pool holding 11 stacks — a reachable state
whose length exceeds the configured maximum, so `give_stack` did not discard
the incoming stack when the pool already held the maximum. -/
theorem pool_exceeds_max_cex :
    Coro.Pool.Reachable 10 (Coro.Pool.givesRange 11) ∧
    (Coro.Pool.givesRange 11).stacks.length = 11 ∧
    ¬ ((Coro.Pool.givesRange 11).stacks.length ≤ Coro.Pool.max_cached_stacks none) :=
  ⟨Coro.Pool.reachable_givesRange 11, by decide, by decide⟩

/-- C5 (amended): every reachable pool holds at most `maxCached + 1` stacks
(`give_stack` pushes whenever the current length is `≤ maxCached`, so the
cache can reach `maxCached + 1`); an incoming stack is discarded exactly when
the pool already holds more than `maxCached` stacks. -/
theorem pool_holds_at_most_max_plus_one :
    (∀ (maxCached : Nat) (p : Coro.Pool.StackPool),
      Coro.Pool.Reachable maxCached p → p.stacks.length ≤ maxCached + 1) ∧
    (∀ (maxCached : Nat) (p : Coro.Pool.StackPool) (s : Coro.Pool.Stack),
      ¬ (p.stacks.length ≤ maxCached) → p.give_stack maxCached s = p) := by
  constructor
  · intro maxCached p h
    induction h with
    | init => simp
    | take p n hr ih =>
      unfold Coro.Pool.StackPool.take_stack
      cases hpos : Coro.Pool.position (fun s => decide (n ≤ s.min_size)) p.stacks with
      | some idx =>
        have hlt := (Coro.Pool.position_spec hpos).1
        have hne : p.stacks ≠ [] := by
          intro hnil
          rw [hnil] at hlt
          simp at hlt
        simp only
        rw [Coro.Pool.swapRemove_length hne]
        omega
      | none => simpa using ih
    | give p s hr ih =>
      unfold Coro.Pool.StackPool.give_stack
      by_cases hle : p.stacks.length ≤ maxCached
      · simp [hle]
      · simpa [hle] using ih
  · intro maxCached p s h
    unfold Coro.Pool.StackPool.give_stack
    simp [h]

/-- C5 witness: the amended bound and the discard case at concrete pools. -/
theorem pool_holds_at_most_max_plus_one_witness :
    (Coro.Pool.givesRange 11).stacks.length ≤ 10 + 1 ∧
    (Coro.Pool.StackPool.mk [Coro.Pool.Stack.mk 0 1, Coro.Pool.Stack.mk 1 1,
        Coro.Pool.Stack.mk 2 1, Coro.Pool.Stack.mk 3 1]).give_stack 2
        (Coro.Pool.Stack.mk 9 9) =
      Coro.Pool.StackPool.mk [Coro.Pool.Stack.mk 0 1, Coro.Pool.Stack.mk 1 1,
        Coro.Pool.Stack.mk 2 1, Coro.Pool.Stack.mk 3 1] :=
  ⟨pool_holds_at_most_max_plus_one.1 10 (Coro.Pool.givesRange 11)
      (Coro.Pool.reachable_givesRange 11),
   pool_holds_at_most_max_plus_one.2 2 _ _ (by decide)⟩

/-- C6: `take_stack` returns a cached stack of sufficient capacity (removing
it from the pool) whenever one is present, first-fit; otherwise it allocates
a fresh stack of exactly the requested size and leaves the pool unchanged;
and after `give_stack` of a stack with capacity `C` into a pool that caches it
and holds nothing else fitting, a `take_stack n` with `n ≤ C` returns that
very stack and restores the pool. -/
theorem take_stack_first_fit :
    (∀ (p : Coro.Pool.StackPool) (min_size : Nat),
      (p.stacks.any fun s => decide (min_size ≤ s.min_size)) = true →
        ((p.take_stack min_size).1.isCached = true ∧
         (p.take_stack min_size).1.fromList p.stacks = true ∧
         min_size ≤ (p.take_stack min_size).1.capacity ∧
         (p.take_stack min_size).2.stacks.length + 1 = p.stacks.length)) ∧
    (∀ (p : Coro.Pool.StackPool) (min_size : Nat),
      (∀ s ∈ p.stacks, ¬ (min_size ≤ s.min_size)) →
        p.take_stack min_size = (Coro.Pool.TakeResult.fresh min_size, p)) ∧
    (∀ (p : Coro.Pool.StackPool) (s : Coro.Pool.Stack) (n maxCached : Nat),
      n ≤ s.min_size → (∀ s' ∈ p.stacks, s'.min_size < n) →
      p.stacks.length ≤ maxCached →
        (p.give_stack maxCached s).take_stack n = (Coro.Pool.TakeResult.cached s, p)) := by
  refine ⟨?_, ?_, ?_⟩
  · intro p min_size hany
    obtain ⟨i, hpos⟩ := Coro.Pool.position_of_any hany
    obtain ⟨hlt, hpred, hmem⟩ := Coro.Pool.position_spec hpos
    have hne : p.stacks ≠ [] := by
      intro hnil
      rw [hnil] at hlt
      simp at hlt
    have hres : p.take_stack min_size =
        (Coro.Pool.TakeResult.cached (p.stacks.getD i (Coro.Pool.Stack.mk 0 0)),
         Coro.Pool.StackPool.mk (Coro.Pool.swapRemove p.stacks i)) := by
      unfold Coro.Pool.StackPool.take_stack
      rw [hpos]
    rw [hres]
    refine ⟨rfl, ?_, ?_, ?_⟩
    · simp only [Coro.Pool.TakeResult.fromList, decide_eq_true_eq]
      exact hmem
    · simpa [Coro.Pool.TakeResult.capacity] using of_decide_eq_true hpred
    · show (Coro.Pool.swapRemove p.stacks i).length + 1 = p.stacks.length
      rw [Coro.Pool.swapRemove_length hne]
      omega
  · intro p min_size hall
    have hpos : Coro.Pool.position (fun s => decide (min_size ≤ s.min_size)) p.stacks = none :=
      Coro.Pool.position_none (fun s hs => decide_eq_false (hall s hs))
    unfold Coro.Pool.StackPool.take_stack
    rw [hpos]
  · intro p s n maxCached hn hsmall hlen
    have hgive : p.give_stack maxCached s = Coro.Pool.StackPool.mk (p.stacks ++ [s]) := by
      simp [Coro.Pool.StackPool.give_stack, hlen]
    have hnone : Coro.Pool.position (fun x => decide (n ≤ x.min_size)) p.stacks = none :=
      Coro.Pool.position_none
        (fun x hx => decide_eq_false (by have := hsmall x hx; omega))
    have hpos := Coro.Pool.position_append_of_none hnone s (decide_eq_true hn)
    rw [hgive]
    have hres2 : (Coro.Pool.StackPool.mk (p.stacks ++ [s])).take_stack n =
        (Coro.Pool.TakeResult.cached
          ((p.stacks ++ [s]).getD p.stacks.length (Coro.Pool.Stack.mk 0 0)),
         Coro.Pool.StackPool.mk (Coro.Pool.swapRemove (p.stacks ++ [s]) p.stacks.length)) := by
      unfold Coro.Pool.StackPool.take_stack
      rw [hpos]
    rw [hres2, Coro.Pool.getD_append_length, Coro.Pool.swapRemove_append_length]

/-- C6 witness: the three parts evaluated at concrete pools. -/
theorem take_stack_first_fit_witness :
    (((Coro.Pool.StackPool.mk [Coro.Pool.Stack.mk 0 5, Coro.Pool.Stack.mk 1 20]).take_stack 10).1.isCached = true ∧
     ((Coro.Pool.StackPool.mk [Coro.Pool.Stack.mk 0 5, Coro.Pool.Stack.mk 1 20]).take_stack 10).1.fromList
       [Coro.Pool.Stack.mk 0 5, Coro.Pool.Stack.mk 1 20] = true ∧
     10 ≤ ((Coro.Pool.StackPool.mk [Coro.Pool.Stack.mk 0 5, Coro.Pool.Stack.mk 1 20]).take_stack 10).1.capacity ∧
     ((Coro.Pool.StackPool.mk [Coro.Pool.Stack.mk 0 5, Coro.Pool.Stack.mk 1 20]).take_stack 10).2.stacks.length + 1 = 2) ∧
    ((Coro.Pool.StackPool.mk [Coro.Pool.Stack.mk 0 5]).take_stack 30 =
      (Coro.Pool.TakeResult.fresh 30, Coro.Pool.StackPool.mk [Coro.Pool.Stack.mk 0 5])) ∧
    (((Coro.Pool.StackPool.mk [Coro.Pool.Stack.mk 0 2]).give_stack 10
        (Coro.Pool.Stack.mk 5 8)).take_stack 4 =
      (Coro.Pool.TakeResult.cached (Coro.Pool.Stack.mk 5 8),
       Coro.Pool.StackPool.mk [Coro.Pool.Stack.mk 0 2])) :=
  ⟨take_stack_first_fit.1 _ 10 (by decide),
   take_stack_first_fit.2.1 _ 30 (by decide),
   take_stack_first_fit.2.2 _ _ 4 10 (by decide) (by decide) (by decide)⟩

open Coro

/-- C1: a coroutine body that panics has its panic caught at the trampoline
boundary — it never crosses the context switch as a native unwind: the
trampoline stores the payload in the thread Environment's `running_state`
slot, the coroutine's state becomes `Panicked`, and the driving `resume`
(and `join`) returns an `Err` carrying that payload while the resuming
caller itself is not terminated (the result is a returned `Err`, not a
panic). -/
theorem panic_contained_at_trampoline :
    ∀ (e : Machine.Env) (t r p : Nat),
      Machine.ValidRun e t r →
      (Machine.getC e.coros t).events = [] →
      (Machine.getC e.coros t).outcome = Machine.Outcome.panic p →
      (Machine.trampolineStore e (Machine.Outcome.panic p)).running_state = some p ∧
      Machine.resume e t = (Machine.afterPanic e t r, Machine.ROut.err p) ∧
      (Machine.getC (Machine.resume e t).1.coros t).state = State.Panicked ∧
      (Machine.resume e t).2 ≠ Machine.ROut.fatal ∧
      (Machine.join e t).2 = Machine.JOut.err p := by
  intro e t r p h hev hoc
  have hres := Machine.resume_eq_panic e h hev hoc
  refine ⟨rfl, hres, ?_, ?_, ?_⟩
  · rw [hres]
    show (Machine.getC (Machine.afterPanic e t r).coros t).state = State.Panicked
    rw [Machine.afterPanic_getC e t r h.2.1 h.2.2.1]
  · rw [hres]
    simp
  · have hj : Machine.join e t = (Machine.afterPanic e t r, Machine.JOut.err p) := by
      unfold Machine.join
      rw [hev]
      exact Machine.joinAux_err 1 e _ t p h.2.2.2.2 hres
    rw [hj]

/-- C1 witness: the panic containment evaluated on a concrete machine whose
worker panics with payload 7. -/
theorem panic_contained_at_trampoline_witness :
    (Machine.trampolineStore Machine.envPanic (Machine.Outcome.panic 7)).running_state = some 7 ∧
    Machine.resume Machine.envPanic 1 =
      (Machine.afterPanic Machine.envPanic 1 0, Machine.ROut.err 7) ∧
    (Machine.getC (Machine.resume Machine.envPanic 1).1.coros 1).state = State.Panicked ∧
    (Machine.resume Machine.envPanic 1).2 ≠ Machine.ROut.fatal ∧
    (Machine.join Machine.envPanic 1).2 = Machine.JOut.err 7 :=
  panic_contained_at_trampoline Machine.envPanic 1 0 7 (by decide) (by decide) (by decide)

/-- C2 counterexample: in the clonable variant, `resume` on a `Finished`
coroutine does not return `Ok` — it returns `Err(Error::Finished)`. -/
theorem resume_finished_clonable_cex :
    Clonable.resume Clonable.cenvFinished 1 =
      (Clonable.cenvFinished, Clonable.ROut.err Clonable.Error.finished) ∧
    Clonable.ROut.err Clonable.Error.finished ≠ Clonable.ROut.ok := by
  decide

/-- C2 (amended): `resume` on a `Finished` or `Running` coroutine performs no
context switch and changes no state; the unique-handle variant returns
`Ok(())` in both cases (so after a normal body return every further resume
returns `Ok`), while the clonable variant returns `Ok(())` only for `Running`
and returns `Err(Error::Finished)` for `Finished`. -/
theorem resume_finished_running_noop :
    (∀ (e : Machine.Env) (t : Nat),
      (Machine.getC e.coros t).state = State.Finished ∨
        (Machine.getC e.coros t).state = State.Running →
      Machine.resume e t = (e, Machine.ROut.ok)) ∧
    (∀ (ce : Clonable.CEnv) (t : Nat),
      (Machine.getC ce.coros t).state = State.Running →
      Clonable.resume ce t = (ce, Clonable.ROut.ok)) ∧
    (∀ (ce : Clonable.CEnv) (t : Nat),
      (Machine.getC ce.coros t).state = State.Finished →
      Clonable.resume ce t = (ce, Clonable.ROut.err Clonable.Error.finished)) ∧
    (∀ (e : Machine.Env) (t r : Nat),
      Machine.ValidRun e t r → (Machine.getC e.coros t).events = [] →
      (Machine.getC e.coros t).outcome = Machine.Outcome.ret →
      (Machine.resume e t).2 = Machine.ROut.ok ∧
      (Machine.getC (Machine.resume e t).1.coros t).state = State.Finished ∧
      Machine.resume (Machine.resume e t).1 t = ((Machine.resume e t).1, Machine.ROut.ok)) := by
  have hdis : ∀ (e : Machine.Env) (t : Nat),
      (Machine.getC e.coros t).state = State.Finished ∨
        (Machine.getC e.coros t).state = State.Running →
      Machine.resume e t = (e, Machine.ROut.ok) := by
    intro e t h
    unfold Machine.resume
    cases h with
    | inl h1 => rw [h1]
    | inr h1 => rw [h1]
  refine ⟨hdis, ?_, ?_, ?_⟩
  · intro ce t h
    unfold Clonable.resume
    rw [h]
  · intro ce t h
    unfold Clonable.resume
    rw [h]
  · intro e t r h hev hoc
    have hres := Machine.resume_eq_finish e h hev hoc
    have hfin : (Machine.getC (Machine.resume e t).1.coros t).state = State.Finished := by
      rw [hres]
      show (Machine.getC (Machine.afterFinish e t r).coros t).state = State.Finished
      rw [Machine.afterFinish_getC e t r h.2.1 h.2.2.1]
    exact ⟨by rw [hres], hfin, hdis _ t (Or.inl hfin)⟩

/-- C2 witness: the dispatch cases evaluated on concrete machines. -/
theorem resume_finished_running_noop_witness :
    Machine.resume Machine.envFinished 1 = (Machine.envFinished, Machine.ROut.ok) ∧
    Clonable.resume Clonable.cenvFinished 0 = (Clonable.cenvFinished, Clonable.ROut.ok) ∧
    Clonable.resume Clonable.cenvFinished 1 =
      (Clonable.cenvFinished, Clonable.ROut.err Clonable.Error.finished) ∧
    ((Machine.resume Machine.envBlocked 1).2 = Machine.ROut.ok ∧
     (Machine.getC (Machine.resume Machine.envBlocked 1).1.coros 1).state = State.Finished ∧
     Machine.resume (Machine.resume Machine.envBlocked 1).1 1 =
       ((Machine.resume Machine.envBlocked 1).1, Machine.ROut.ok)) :=
  ⟨resume_finished_running_noop.1 Machine.envFinished 1 (Or.inl (by decide)),
   resume_finished_running_noop.2.1 Clonable.cenvFinished 0 (by decide),
   resume_finished_running_noop.2.2.1 Clonable.cenvFinished 1 (by decide),
   resume_finished_running_noop.2.2.2 Machine.envBlocked 1 0 (by decide) (by decide) (by decide)⟩

/-- C3 counterexample: in the clonable variant, resuming a `Panicked`
coroutine returns the recoverable `Err(Error::Panicked)` — the caller is not
aborted. -/
theorem resume_panicked_clonable_cex :
    Clonable.resume Clonable.cenvPanicked 1 =
      (Clonable.cenvPanicked, Clonable.ROut.err Clonable.Error.panicked) ∧
    Clonable.ROut.err Clonable.Error.panicked ≠ Clonable.ROut.fatal := by
  decide

/-- C3 (amended): in the unique-handle variant, resuming a `Panicked`
coroutine panics in the caller (`panic!("Trying to resume a panicked
coroutine")`), returning no `Result`; in the clonable variant it returns the
recoverable `Err(Error::Panicked)` without a switch or state change. -/
theorem resume_panicked_fatal :
    (∀ (e : Machine.Env) (t : Nat),
      (Machine.getC e.coros t).state = State.Panicked →
      Machine.resume e t = (e, Machine.ROut.fatal)) ∧
    (∀ (ce : Clonable.CEnv) (t : Nat),
      (Machine.getC ce.coros t).state = State.Panicked →
      Clonable.resume ce t = (ce, Clonable.ROut.err Clonable.Error.panicked)) := by
  constructor
  · intro e t h
    unfold Machine.resume
    rw [h]
  · intro ce t h
    unfold Clonable.resume
    rw [h]

/-- C3 witness: both dispatches evaluated on concrete `Panicked` workers. -/
theorem resume_panicked_fatal_witness :
    Machine.resume Machine.envPanicked 1 = (Machine.envPanicked, Machine.ROut.fatal) ∧
    Clonable.resume Clonable.cenvPanicked 1 =
      (Clonable.cenvPanicked, Clonable.ROut.err Clonable.Error.panicked) :=
  ⟨resume_panicked_fatal.1 Machine.envPanicked 1 (by decide),
   resume_panicked_fatal.2 Clonable.cenvPanicked 1 (by decide)⟩

/-- C4 counterexample: `join` does not stop at `Blocked` — on a machine whose
worker is `Blocked`, `join` resumes it (the state moves to `Finished` and the
environment changes), instead of returning with the coroutine untouched. -/
theorem join_blocked_cex :
    (Machine.getC Machine.envBlocked.coros 1).state = State.Blocked ∧
    (Machine.getC (Machine.join Machine.envBlocked 1).1.coros 1).state = State.Finished ∧
    (Machine.join Machine.envBlocked 1).1 ≠ Machine.envBlocked := by
  decide

/-- C4 (amended): `join` repeatedly calls `resume` exactly while the state is
`Suspended` or `Blocked`, and stops — returning `Ok(())` without a further
resume — as soon as the state is `Finished`, `Panicked`, `Normal` or
`Running`; if every resume succeeds the driven body ends `Finished` and
`join` returns `Ok(())`, and a panicking body makes `join` propagate the
`Err` with the payload. -/
theorem join_loop_amended :
    (∀ (e : Machine.Env) (t : Nat),
      (Machine.getC e.coros t).state ≠ State.Suspended →
      (Machine.getC e.coros t).state ≠ State.Blocked →
      Machine.join e t = (e, Machine.JOut.ok)) ∧
    (∀ (e : Machine.Env) (t r : Nat), Machine.ValidRun e t r →
      (Machine.getC e.coros t).outcome = Machine.Outcome.ret →
      (Machine.join e t).2 = Machine.JOut.ok ∧
      (Machine.getC (Machine.join e t).1.coros t).state = State.Finished) ∧
    (∀ (e : Machine.Env) (t r p : Nat), Machine.ValidRun e t r →
      (Machine.getC e.coros t).outcome = Machine.Outcome.panic p →
      (Machine.join e t).2 = Machine.JOut.err p ∧
      (Machine.getC (Machine.join e t).1.coros t).state = State.Panicked) := by
  refine ⟨?_, ?_, ?_⟩
  · intro e t h1 h2
    exact Machine.joinAux_stop _ e t h1 h2
  · intro e t r h hoc
    exact (Machine.joinAux_run (Machine.getC e.coros t).events _ e t r h rfl
      (Nat.le_refl _)).1 hoc
  · intro e t r p h hoc
    exact (Machine.joinAux_run (Machine.getC e.coros t).events _ e t r h rfl
      (Nat.le_refl _)).2 p hoc

/-- C4 witness: `join` evaluated on a `Finished` worker (no resume), on a
worker that suspends once and returns, and on a panicking worker. -/
theorem join_loop_amended_witness :
    Machine.join Machine.envFinished 1 = (Machine.envFinished, Machine.JOut.ok) ∧
    ((Machine.join Machine.envSchedOnce 1).2 = Machine.JOut.ok ∧
     (Machine.getC (Machine.join Machine.envSchedOnce 1).1.coros 1).state = State.Finished) ∧
    ((Machine.join Machine.envPanic 1).2 = Machine.JOut.err 7 ∧
     (Machine.getC (Machine.join Machine.envPanic 1).1.coros 1).state = State.Panicked) :=
  ⟨join_loop_amended.1 Machine.envFinished 1 (by decide) (by decide),
   join_loop_amended.2.1 Machine.envSchedOnce 1 0 (by decide) (by decide),
   join_loop_amended.2.2 Machine.envPanic 1 0 7 (by decide) (by decide)⟩

/-- C10 counterexample: `yield_now(Running)` at the environment root is not a
no-op — the `assert!(state != State::Running)` fails (a panic), so the call
does not return normally. -/
theorem yield_running_assert_cex :
    Machine.envRoot.coroutine_stack.length = 1 ∧
    Machine.yield_now Machine.envRoot State.Running =
      (Machine.envRoot, Machine.YieldOut.fatal) ∧
    Machine.YieldOut.fatal ≠ Machine.YieldOut.returned := by
  decide

/-- C10 (amended): when only the root pseudo-coroutine is active
(`coroutine_stack.len() == 1`), `sched()`, `block()`, and `yield_now(state)`
for every `state` other than `Running` return immediately without a context
switch, without popping the stack and without changing any state (in both the
unique and the clonable variant); `yield_now(Running)` instead fails the
assertion (panics) regardless of the stack depth. -/
theorem yield_root_noop :
    (∀ (e : Machine.Env) (st : State),
      e.coroutine_stack.length = 1 → st ≠ State.Running →
      Machine.yield_now e st = (e, Machine.YieldOut.returned)) ∧
    (∀ (e : Machine.Env), e.coroutine_stack.length = 1 →
      Machine.sched e = (e, Machine.YieldOut.returned) ∧
      Machine.block e = (e, Machine.YieldOut.returned)) ∧
    (∀ (ce : Clonable.CEnv) (st : State),
      ce.coroutine_stack.length = 1 → st ≠ State.Running →
      Clonable.yield_now ce st = (ce, Machine.YieldOut.returned)) ∧
    (∀ (e : Machine.Env),
      Machine.yield_now e State.Running = (e, Machine.YieldOut.fatal)) := by
  have hgen : ∀ (e : Machine.Env) (st : State),
      e.coroutine_stack.length = 1 → st ≠ State.Running →
      Machine.yield_now e st = (e, Machine.YieldOut.returned) := by
    intro e st h1 h2
    unfold Machine.yield_now
    rw [if_neg h2, if_pos h1]
  refine ⟨hgen, ?_, ?_, ?_⟩
  · intro e h1
    exact ⟨hgen e State.Suspended h1 (by decide), hgen e State.Blocked h1 (by decide)⟩
  · intro ce st h1 h2
    unfold Clonable.yield_now
    rw [if_neg h2, if_pos h1]
  · intro e
    unfold Machine.yield_now
    rw [if_pos rfl]

/-- C10 witness: the root no-ops evaluated on concrete environments. -/
theorem yield_root_noop_witness :
    Machine.yield_now Machine.envRoot State.Blocked =
      (Machine.envRoot, Machine.YieldOut.returned) ∧
    (Machine.sched Machine.envRoot = (Machine.envRoot, Machine.YieldOut.returned) ∧
     Machine.block Machine.envRoot = (Machine.envRoot, Machine.YieldOut.returned)) ∧
    Clonable.yield_now Clonable.cenvFinished State.Suspended =
      (Clonable.cenvFinished, Machine.YieldOut.returned) :=
  ⟨yield_root_noop.1 Machine.envRoot State.Blocked (by decide) (by decide),
   yield_root_noop.2.1 Machine.envRoot (by decide),
   yield_root_noop.2.2.1 Clonable.cenvFinished State.Suspended (by decide) (by decide)⟩

/-- C8: after `resume_coroutine` resumes a handle (only `Suspended`/`Blocked`
handles are resumed), it dispatches on the resulting state: `Suspended`
re-enqueues the handle via `ready`; `Blocked` leaves the scheduler untouched;
`Finished`/`Panicked` retire the handle (the dropped handle's stack is
reclaimed); and `Running`/`Normal` after the resume returns hit
`unreachable!()`. -/
theorem resume_coroutine_dispatch :
    ∀ (s : Sched.Scheduler) (w : Nat) (pre : State),
      pre = State.Suspended ∨ pre = State.Blocked →
      Sched.resume_coroutine s w pre State.Suspended = (Sched.ready s w, Sched.Action.requeued) ∧
      Sched.resume_coroutine s w pre State.Blocked = (s, Sched.Action.untouched) ∧
      Sched.resume_coroutine s w pre State.Finished = (s, Sched.Action.retired) ∧
      Sched.resume_coroutine s w pre State.Panicked = (s, Sched.Action.retired) ∧
      Sched.resume_coroutine s w pre State.Running = (s, Sched.Action.unreachable) ∧
      Sched.resume_coroutine s w pre State.Normal = (s, Sched.Action.unreachable) := by
  intro s w pre h
  cases h with
  | inl h1 => subst h1; exact ⟨rfl, rfl, rfl, rfl, rfl, rfl⟩
  | inr h1 => subst h1; exact ⟨rfl, rfl, rfl, rfl, rfl, rfl⟩

/-- C8 witness: the dispatch evaluated on an empty scheduler and handle 5. -/
theorem resume_coroutine_dispatch_witness :
    Sched.resume_coroutine (Sched.Scheduler.mk [] []) 5 State.Suspended State.Suspended =
      (Sched.ready (Sched.Scheduler.mk [] []) 5, Sched.Action.requeued) ∧
    Sched.resume_coroutine (Sched.Scheduler.mk [] []) 5 State.Suspended State.Blocked =
      (Sched.Scheduler.mk [] [], Sched.Action.untouched) ∧
    Sched.resume_coroutine (Sched.Scheduler.mk [] []) 5 State.Suspended State.Finished =
      (Sched.Scheduler.mk [] [], Sched.Action.retired) ∧
    Sched.resume_coroutine (Sched.Scheduler.mk [] []) 5 State.Suspended State.Panicked =
      (Sched.Scheduler.mk [] [], Sched.Action.retired) ∧
    Sched.resume_coroutine (Sched.Scheduler.mk [] []) 5 State.Suspended State.Running =
      (Sched.Scheduler.mk [] [], Sched.Action.unreachable) ∧
    Sched.resume_coroutine (Sched.Scheduler.mk [] []) 5 State.Suspended State.Normal =
      (Sched.Scheduler.mk [] [], Sched.Action.unreachable) :=
  resume_coroutine_dispatch (Sched.Scheduler.mk [] []) 5 State.Suspended (Or.inl rfl)

/-- C7 counterexample: the `Drop` of the unique-handle `Coroutine` returns
the stack to the pool with no forced unwind: its event trace contains no
destructor run, so a suspended body's pending destructor is not run before
the stack is reclaimed. -/
theorem unique_drop_no_unwind_cex :
    (Asym.uniqueCoroutineDrop (some (Pool.Stack.mk 0 2097152)) (Pool.StackPool.mk []) 10).2 =
      [Asym.DropEvent.stackToPool] ∧
    (Asym.uniqueCoroutineDrop (some (Pool.Stack.mk 0 2097152)) (Pool.StackPool.mk []) 10).2 ≠
      [Asym.DropEvent.destructorsRan 1, Asym.DropEvent.stackToPool] := by
  decide

/-- C7 (amended): in the asymmetric implementation
(`src/coroutine/asymmetric.rs`), dropping a coroutine suspended mid-body
(state `Running`) forces one more switch into its saved context with the
`ForceUnwind` signal: every pending destructor runs exactly once, the
coroutine ends `Finished`, and only after that unwind does the stack go back
to the pool; the unique-handle `Drop` (`src/coroutine_unique.rs`) instead
returns the stack without any unwind. -/
theorem drop_forced_unwind_asymmetric :
    ∀ (c : Asym.CoroutineImpl) (pool : Pool.StackPool) (stk : Pool.Stack) (maxCached : Nat),
      c.state = Asym.AState.Running →
      (Asym.dropImpl c pool stk maxCached).1 =
        ⟨Asym.AState.Finished, 0, c.destructorsRun + c.pendingDestructors⟩ ∧
      (Asym.dropImpl c pool stk maxCached).2.1 = pool.give_stack maxCached stk ∧
      (Asym.dropImpl c pool stk maxCached).2.2 =
        [Asym.DropEvent.destructorsRan c.pendingDestructors, Asym.DropEvent.stackToPool] := by
  intro c pool stk maxCached h
  refine ⟨?_, rfl, ?_⟩
  · simp [Asym.dropImpl, Asym.force_unwind, Asym.unwindResume, h]
  · simp [Asym.dropImpl, Asym.force_unwind, Asym.unwindResume, h]

/-- C7 witness: dropping a running asymmetric coroutine with one pending
destructor runs it once before the stack returns to the pool. -/
theorem drop_forced_unwind_asymmetric_witness :
    (Asym.dropImpl (Asym.CoroutineImpl.mk Asym.AState.Running 1 0)
        (Pool.StackPool.mk []) (Pool.Stack.mk 0 2097152) 10).1 =
      Asym.CoroutineImpl.mk Asym.AState.Finished 0 1 ∧
    (Asym.dropImpl (Asym.CoroutineImpl.mk Asym.AState.Running 1 0)
        (Pool.StackPool.mk []) (Pool.Stack.mk 0 2097152) 10).2.1 =
      (Pool.StackPool.mk []).give_stack 10 (Pool.Stack.mk 0 2097152) ∧
    (Asym.dropImpl (Asym.CoroutineImpl.mk Asym.AState.Running 1 0)
        (Pool.StackPool.mk []) (Pool.Stack.mk 0 2097152) 10).2.2 =
      [Asym.DropEvent.destructorsRan 1, Asym.DropEvent.stackToPool] :=
  drop_forced_unwind_asymmetric (Asym.CoroutineImpl.mk Asym.AState.Running 1 0)
    (Pool.StackPool.mk []) (Pool.Stack.mk 0 2097152) 10 (by decide)
